import Mathlib

/-!
Verification model of the streaming chat pipeline in
`src/client/components/Chat/ChatBox.tsx` (the `sendMessage` / `stopGenerating`
logic).  Text is modelled as `List Char` (chunks are taken after `TextDecoder`
has produced text, so byte-level UTF-8 reassembly is abstracted away).  The
network is modelled by explicit parameters: presence of the API key, HTTP
success, presence of a readable body, the list of text chunks delivered by
successive `reader.read()` calls, and an optional suspension point at which an
abort (from `stopGenerating`) is observed.  React state updates
(`setMessages`, `setIsLoading`) are modelled as explicit state threading; the
`messages` identifier captured by the `sendMessage` closure is threaded
separately (`m0`) from the live state, mirroring the JavaScript closure
semantics.
-/

/-- Role of a chat message, from the `ChatMessage` interface in ChatBox.tsx. -/
inductive Role where
  | user
  | assistant
deriving DecidableEq, Repr

/-- A transcript entry: `{ role, content, timestamp }` from ChatBox.tsx. -/
structure ChatMessage where
  role : Role
  content : List Char
  timestamp : Nat
deriving DecidableEq, Repr

/-- One step of `buffer.split('\n')` viewed as a left fold: accumulated
complete lines plus the current partial line. -/
def feedStep (acc : List (List Char) × List Char) (c : Char) :
    List (List Char) × List Char :=
  if c = '\n' then (acc.1 ++ [acc.2], []) else (acc.1, acc.2 ++ [c])

/-- Model of `const lines = buffer.split('\n'); buffer = lines.pop() || ''`:
returns the complete (newline-terminated) lines and the trailing partial
line that becomes the new buffer. -/
def splitFeed (l : List Char) : List (List Char) × List Char :=
  l.foldl feedStep ([], [])

/-- The decode loop of ChatBox.tsx lines 86-93 at the line level: starting
from buffer `buf`, feed each chunk (`buffer += chunk`, split on newline,
retain the trailing partial line), collecting all complete lines in order;
the final buffer is discarded at `done` exactly as the code does. -/
def feedChunks (buf : List Char) : List (List Char) → List (List Char) × List Char
  | [] => ([], buf)
  | s :: ss =>
    let p := splitFeed (buf ++ s)
    let q := feedChunks p.2 ss
    (p.1 ++ q.1, q.2)

/-- Complete lines produced by feeding the chunks in order from an empty
buffer (the residual buffer is never processed, as in the source). -/
def decodeLines (css : List (List Char)) : List (List Char) :=
  (feedChunks [] css).1

/-- Opening brace character (written via its code point). -/
def lbrace : Char := Char.ofNat 123

/-- Closing brace character (written via its code point). -/
def rbrace : Char := Char.ofNat 125

/-- JSON values as produced by `JSON.parse`.  Numbers are kept exactly as
`m * 10 ^ e` (mantissa/exponent), which agrees with the JavaScript double for
every value the protocol uses; doubles' rounding is outside the claims. -/
inductive Json where
  | null
  | bool (b : Bool)
  | num (m : Int) (e : Int)
  | str (s : List Char)
  | arr (xs : List Json)
  | obj (fs : List (List Char × Json))
deriving Repr

/-- JSON insignificant whitespace (space, tab, line feed, carriage
return, by code point). -/
def isJsonWs (c : Char) : Bool :=
  [32, 9, 10, 13].contains c.toNat

/-- Drop leading JSON whitespace. -/
def skipWs (l : List Char) : List Char := l.dropWhile isJsonWs

/-- Value of a hexadecimal digit. -/
def hexVal (c : Char) : Option Nat :=
  if '0' ≤ c ∧ c ≤ '9' then some (c.toNat - 48)
  else if 'a' ≤ c ∧ c ≤ 'f' then some (c.toNat - 87)
  else if 'A' ≤ c ∧ c ≤ 'F' then some (c.toNat - 55)
  else none

/-- Parse the body of a JSON string after the opening quote, handling the
escape sequences of the JSON grammar; returns the decoded characters and the
remaining input.  Fuel-driven; callers pass at least `length + 1`. -/
def parseStrBody : Nat → List Char → Option (List Char × List Char)
  | 0, _ => none
  | _ + 1, [] => none
  | fuel + 1, c :: rest =>
    if c = '"' then some ([], rest)
    else if c = '\\' then
      match rest with
      | [] => none
      | e :: rest2 =>
        let cont := fun (ch : Char) (r : List Char) =>
          match parseStrBody fuel r with
          | none => none
          | some (s, r') => some (ch :: s, r')
        if e = '"' then cont '"' rest2
        else if e = '\\' then cont '\\' rest2
        else if e = '/' then cont '/' rest2
        else if e = 'b' then cont (Char.ofNat 8) rest2
        else if e = 'f' then cont (Char.ofNat 12) rest2
        else if e = 'n' then cont '\n' rest2
        else if e = 'r' then cont '\r' rest2
        else if e = 't' then cont '\t' rest2
        else if e = 'u' then
          match rest2 with
          | h1 :: h2 :: h3 :: h4 :: rest3 =>
            match hexVal h1, hexVal h2, hexVal h3, hexVal h4 with
            | some a, some b, some c2, some d =>
              cont (Char.ofNat (((a * 16 + b) * 16 + c2) * 16 + d)) rest3
            | _, _, _, _ => none
          | _ => none
        else none
    else if c.toNat < 32 then none
    else
      match parseStrBody fuel rest with
      | none => none
      | some (s, r') => some (c :: s, r')

/-- Numeric value of a decimal digit character. -/
def digitVal (c : Char) : Nat := c.toNat - 48

/-- Value of a digit string. -/
def natOfDigits (ds : List Char) : Nat :=
  ds.foldl (fun a c => a * 10 + digitVal c) 0

/-- Strip trailing decimal zeros from a mantissa, counting how many were
removed (normalises `1.50` and `1.5` to the same representation, as the
JavaScript double does). -/
def stripZeros : Nat → Nat → Nat × Nat
  | 0, n => (n, 0)
  | fuel + 1, n =>
    if n ≠ 0 ∧ n % 10 = 0 then
      let p := stripZeros fuel (n / 10)
      (p.1, p.2 + 1)
    else (n, 0)

/-- Build a normalised JSON number from sign, digits value and exponent. -/
def mkNum (neg : Bool) (digits10 : Nat) (e : Int) : Json :=
  if digits10 = 0 then Json.num 0 0
  else
    let p := stripZeros digits10 digits10
    Json.num (if neg then -(p.1 : Int) else (p.1 : Int)) (e + p.2)

/-- Parse a JSON number token (sign, integer part with no leading zero,
optional fraction, optional exponent). -/
def parseNumber (l : List Char) : Option (Json × List Char) :=
  let sl : Bool × List Char :=
    match l with
    | c0 :: tl => if c0 = '-' then (true, tl) else (false, c0 :: tl)
    | [] => (false, [])
  match sl.2 with
  | [] => none
  | c :: _ =>
    if ¬ c.isDigit then none
    else
      let ids := sl.2.takeWhile Char.isDigit
      let r2 := sl.2.dropWhile Char.isDigit
      if 1 < ids.length ∧ c = '0' then none
      else
        let fracRes : Option (List Char × List Char) :=
          match r2 with
          | '.' :: r =>
            let fs := r.takeWhile Char.isDigit
            if fs = [] then none else some (fs, r.dropWhile Char.isDigit)
          | _ => some ([], r2)
        match fracRes with
        | none => none
        | some (fds, r3) =>
          let expRes : Option (Int × List Char) :=
            match r3 with
            | c2 :: r =>
              if c2 = 'e' ∨ c2 = 'E' then
                let sr : Int × List Char :=
                  match r with
                  | s1 :: rtl =>
                    if s1 = '-' then (-1, rtl)
                    else if s1 = '+' then (1, rtl)
                    else (1, s1 :: rtl)
                  | [] => (1, [])
                let es := sr.2.takeWhile Char.isDigit
                if es = [] then none
                else some (sr.1 * (natOfDigits es : Int), sr.2.dropWhile Char.isDigit)
              else some (0, c2 :: r)
            | [] => some (0, [])
          match expRes with
          | none => none
          | some (ex, r4) =>
            some (mkNum sl.1 (natOfDigits (ids ++ fds)) (ex - fds.length), r4)

/-- Expect a literal tail (for `true` / `false` / `null`). -/
def expectLit (lit : List Char) (l : List Char) : Option (List Char) :=
  if l.take lit.length = lit then some (l.drop lit.length) else none

mutual

/-- Recursive-descent parser for one JSON value; fuelled (the fuel bounds
nesting depth, each level consumes at least one character). -/
def parseValue : Nat → List Char → Option (Json × List Char)
  | 0, _ => none
  | fuel + 1, l =>
    match skipWs l with
    | [] => none
    | c :: rest =>
      if c = '"' then
        match parseStrBody (rest.length + 1) rest with
        | none => none
        | some (s, r) => some (Json.str s, r)
      else if c = lbrace then
        match skipWs rest with
        | c2 :: r2 =>
          if c2 = rbrace then some (Json.obj [], r2)
          else
            match parseMembers fuel (c2 :: r2) with
            | none => none
            | some (fs, r) => some (Json.obj fs, r)
        | [] => none
      else if c = '[' then
        match skipWs rest with
        | ']' :: r2 => some (Json.arr [], r2)
        | l2 =>
          match parseElems fuel l2 with
          | none => none
          | some (xs, r) => some (Json.arr xs, r)
      else if c = 't' then
        match expectLit "rue".toList rest with
        | some r => some (Json.bool true, r)
        | none => none
      else if c = 'f' then
        match expectLit "alse".toList rest with
        | some r => some (Json.bool false, r)
        | none => none
      else if c = 'n' then
        match expectLit "ull".toList rest with
        | some r => some (Json.null, r)
        | none => none
      else if c = '-' ∨ c.isDigit then parseNumber (c :: rest)
      else none

/-- Parse the members of a JSON object after the opening brace (at least one
member; the empty object is handled by the caller). -/
def parseMembers : Nat → List Char → Option (List (List Char × Json) × List Char)
  | 0, _ => none
  | fuel + 1, l =>
    match skipWs l with
    | '"' :: rest =>
      match parseStrBody (rest.length + 1) rest with
      | none => none
      | some (k, r1) =>
        match skipWs r1 with
        | ':' :: r2 =>
          match parseValue fuel r2 with
          | none => none
          | some (v, r3) =>
            match skipWs r3 with
            | ',' :: r4 =>
              match parseMembers fuel r4 with
              | none => none
              | some (fs, r) => some ((k, v) :: fs, r)
            | c :: r4 => if c = rbrace then some ([(k, v)], r4) else none
            | [] => none
        | _ => none
    | _ => none

/-- Parse the elements of a JSON array after the opening bracket (at least
one element; the empty array is handled by the caller). -/
def parseElems : Nat → List Char → Option (List Json × List Char)
  | 0, _ => none
  | fuel + 1, l =>
    match parseValue fuel l with
    | none => none
    | some (v, r1) =>
      match skipWs r1 with
      | ',' :: r2 =>
        match parseElems fuel r2 with
        | none => none
        | some (xs, r) => some (v :: xs, r)
      | ']' :: r2 => some ([v], r2)
      | _ => none

end

/-- Model of `JSON.parse`: parse one value and require only whitespace to
remain; `none` models the thrown `SyntaxError` (always caught by the code). -/
def jsonParse (l : List Char) : Option Json :=
  match parseValue (l.length + 1) l with
  | none => none
  | some (j, r) => if skipWs r = [] then some j else none

/-- Last binding of a key in an object's member list (JavaScript keeps the
last duplicate key). -/
def lookupLast (fs : List (List Char × Json)) (k : List Char) : Option Json :=
  match fs with
  | [] => none
  | (k', v) :: rest =>
    match lookupLast rest k with
    | some r => some r
    | none => if k' = k then some v else none

/-- Property access `j.k` as used by the code (`parsed.type`, `parsed.data`,
`parsed.error`): a value for objects that bind the key, `none` (JavaScript
`undefined`, or the caught TypeError on `null`) otherwise. -/
def jsGet (j : Json) (k : List Char) : Option Json :=
  match j with
  | Json.obj fs => lookupLast fs k
  | _ => none

/-- JavaScript truthiness of a parsed JSON value, as used by
`parsed.error || '处理失败'` and `if (finalContent ...)`. -/
def jsTruthy : Json → Bool
  | Json.null => false
  | Json.bool b => b
  | Json.num m _ => m != 0
  | Json.str s => !s.isEmpty
  | Json.arr _ => true
  | Json.obj _ => true

/-- Decimal digits of a natural number (fuelled). -/
def natDigitsAux : Nat → Nat → List Char
  | 0, _ => []
  | fuel + 1, n =>
    if n < 10 then [Char.ofNat (48 + n)]
    else natDigitsAux fuel (n / 10) ++ [Char.ofNat (48 + n % 10)]

/-- Decimal rendering of a natural number. -/
def natToChars (n : Nat) : List Char := natDigitsAux (n + 1) n

/-- Decimal rendering of a normalised JSON number `m * 10 ^ e` (matches
JavaScript number-to-string for the ordinary magnitudes the protocol could
carry; the exponent notation JavaScript switches to beyond 1e21 is not
modelled, no claim exercises it). -/
def numToChars (m : Int) (e : Int) : List Char :=
  if m = 0 then ['0']
  else
    let sign : List Char := if m < 0 then ['-'] else []
    let ds := natToChars m.natAbs
    if 0 ≤ e then sign ++ ds ++ List.replicate e.toNat '0'
    else
      let k := (-e).toNat
      if k < ds.length then
        sign ++ ds.take (ds.length - k) ++ '.' :: ds.drop (ds.length - k)
      else sign ++ '0' :: '.' :: List.replicate (k - ds.length) '0' ++ ds

mutual

/-- JavaScript string coercion of a JSON value, as performed by `+=` and
template literals. -/
def jsToString : Json → List Char
  | Json.str s => s
  | Json.num m e => numToChars m e
  | Json.bool true => "true".toList
  | Json.bool false => "false".toList
  | Json.null => "null".toList
  | Json.obj _ => "[object Object]".toList
  | Json.arr xs => arrString xs
termination_by structural j => j

/-- Array elements joined with commas (`Array.prototype.toString`; a `null`
element renders as the empty string). -/
def arrString : List Json → List Char
  | [] => []
  | [Json.null] => []
  | [x] => jsToString x
  | Json.null :: xs => ',' :: arrString xs
  | x :: xs => jsToString x ++ ',' :: arrString xs
termination_by structural l => l

end

/-- A decoded logical event: `{type:'content'}`, `{type:'end'}` or
`{type:'error'}` lines, with their payload text already coerced as the code
would coerce it. -/
inductive Frame where
  | content (payload : List Char)
  | endFrame
  | error (text : List Char)
deriving DecidableEq, Repr

/-- The `data: ` line marker expected by the code (`line.startsWith('data: ')`). -/
def dataMarker : List Char := "data: ".toList

/-- Payload of a content frame: `parsed.data` coerced by `+=` (JavaScript
renders a missing field as `undefined`). -/
def contentPayload (j : Json) : List Char :=
  match jsGet j "data".toList with
  | some v => jsToString v
  | none => "undefined".toList

/-- Fallback error text `'处理失败'`. -/
def errFallback : List Char := "处理失败".toList

/-- Error text of an error frame: `parsed.error || '处理失败'` coerced by the
template literal. -/
def errText (j : Json) : List Char :=
  match jsGet j "error".toList with
  | some v => if jsTruthy v then jsToString v else errFallback
  | none => errFallback

/-- Decode one complete line into a frame, exactly as the loop body at
ChatBox.tsx lines 94-132 does: require the `data: ` marker, `JSON.parse` the
rest (parse failure falls into the empty catch), then dispatch on
`parsed.type`; any other shape produces nothing. -/
def parseLine (line : List Char) : Option Frame :=
  if line.take 6 = dataMarker then
    match jsonParse (line.drop 6) with
    | none => none
    | some j =>
      match jsGet j "type".toList with
      | some (Json.str t) =>
        if t = "content".toList then some (Frame.content (contentPayload j))
        else if t = "end".toList then some Frame.endFrame
        else if t = "error".toList then some (Frame.error (errText j))
        else none
      | _ => none
  else none

/-- Content-frame effect (ChatBox.tsx lines 102-109): append the payload to
the last message's content, but only when a last message exists and its role
is `assistant`. -/
def applyContent : List ChatMessage → List Char → List ChatMessage
  | [], _ => []
  | [m], p =>
    match m.role with
    | Role.assistant => [{ m with content := m.content ++ p }]
    | Role.user => [m]
  | m :: m2 :: rest, p => m :: applyContent (m2 :: rest) p

/-- Visible error marker `⚠️ ` prepended by the code. -/
def errMark : List Char := "⚠️ ".toList

/-- Error-frame effect (ChatBox.tsx lines 120-127): overwrite the last
message's content with the marked error string, but only when a last message
exists and its role is `assistant`. -/
def applyError : List ChatMessage → List Char → List ChatMessage
  | [], _ => []
  | [m], e =>
    match m.role with
    | Role.assistant => [{ m with content := errMark ++ e }]
    | Role.user => [m]
  | m :: m2 :: rest, e => m :: applyError (m2 :: rest) e

/-- Live state threaded through the read loop: the `messages` React state,
the `isLoading` flag, the `onSpeak` invocations so far, and the decoder
buffer. -/
structure LoopSt where
  msgs : List ChatMessage
  loading : Bool
  spoken : List (List Char)
  buf : List Char
deriving DecidableEq, Repr

/-- Effect of one decoded frame on the live state.  `m0` is the stale
`messages` value captured by the `sendMessage` closure: the end-frame
narration at line 114 reads `messages[messages.length - 1]?.content || ''`
from that closure value, not from the live state.  `hs` records whether an
`onSpeak` prop was supplied. -/
def applyFrame (m0 : List ChatMessage) (hs : Bool) (st : LoopSt) : Frame → LoopSt
  | Frame.content p => { st with msgs := applyContent st.msgs p }
  | Frame.endFrame =>
    let fc : List Char :=
      match m0.getLast? with
      | some m => m.content
      | none => []
    { st with
      loading := false
      spoken := if fc ≠ [] ∧ hs = true then st.spoken ++ [fc] else st.spoken }
  | Frame.error e =>
    { st with loading := false, msgs := applyError st.msgs e }

/-- Process one complete line: decode it and apply the frame, or do nothing
(non-`data: ` lines and JSON parse failures are silently skipped). -/
def procLine (m0 : List ChatMessage) (hs : Bool) (st : LoopSt) (line : List Char) :
    LoopSt :=
  match parseLine line with
  | none => st
  | some f => applyFrame m0 hs st f

/-- Process one chunk from `reader.read()`: append to the buffer, split on
newlines, keep the trailing partial line, and run each complete line in
order. -/
def procChunk (m0 : List ChatMessage) (hs : Bool) (st : LoopSt) (chunk : List Char) :
    LoopSt :=
  let p := splitFeed (st.buf ++ chunk)
  (p.1).foldl (procLine m0 hs) { st with buf := p.2 }

/-- Which exit the `sendMessage` control flow took: the early-return guard,
the `AbortError` branch of the catch, the generic branch of the catch, or
falling out of the read loop at `done`. -/
inductive ExitPath where
  | noopRejected
  | caughtAbort
  | caughtError
  | streamDone
deriving DecidableEq, Repr

/-- Observable result of a `sendMessage` run: final transcript, final
`isLoading`, the `onSpeak` invocations in order, and the exit path. -/
structure SendResult where
  messages : List ChatMessage
  isLoading : Bool
  spoken : List (List Char)
  exit : ExitPath
deriving DecidableEq, Repr

/-- Decrement the abort countdown as one read completes. -/
def decCancel : Option Nat → Option Nat
  | none => none
  | some k => some (k - 1)

/-- The `while (true)` read loop.  `ca = some 1` means the abort from
`stopGenerating` is observed at the next `reader.read()` (the promise rejects
with `AbortError`: the catch only logs and clears `isLoading`); otherwise an
empty chunk list means `done` (the loop breaks; note the code never touches
`isLoading` on this path). -/
def runLoop (m0 : List ChatMessage) (hs : Bool) (st : LoopSt)
    (cs : List (List Char)) (ca : Option Nat) : SendResult :=
  if ca = some 1 then ⟨st.msgs, false, st.spoken, ExitPath.caughtAbort⟩
  else
    match cs with
    | [] => ⟨st.msgs, st.loading, st.spoken, ExitPath.streamDone⟩
    | c :: cs' => runLoop m0 hs (procChunk m0 hs st c) cs' (decCancel ca)

/-- JavaScript `String.prototype.trim` whitespace. -/
def isJsWs (c : Char) : Bool :=
  [32, 9, 10, 13, 11, 12, 160, 65279, 8232, 8233].contains c.toNat

/-- Model of `inputValue.trim()`. -/
def trimJs (l : List Char) : List Char :=
  ((l.dropWhile isJsWs).reverse.dropWhile isJsWs).reverse

/-- Error message `'未配置魔搭API密钥'` thrown when the key is absent. -/
def keyMissingMsg : List Char := "未配置魔搭API密钥".toList

/-- Error message `'请求失败'` thrown on a non-success response. -/
def reqFailedMsg : List Char := "请求失败".toList

/-- Error message `'无法读取响应流'` thrown when the body has no reader. -/
def noReaderMsg : List Char := "无法读取响应流".toList

/-- Model of `sendMessage` in ChatBox.tsx.  Parameters: the input field
value, the `messages` and `isLoading` state captured by the closure, whether
an `onSpeak` prop exists, the stored API key, whether the HTTP response is
ok, whether the body yields a reader, the chunks delivered by successive
reads, the abort countdown (`some 0`: abort observed at the `fetch` await;
`some (k+1)`: abort observed at read `k+1`, after `k` chunks were processed;
`none`: never aborted), and the `Date.now()` values used for the user
message, the empty assistant message, and the catch-branch error message. -/
def sendMessage (inputValue : List Char) (messages0 : List ChatMessage)
    (isLoading0 : Bool) (hasSpeak : Bool) (apiKey : Option (List Char))
    (responseOk : Bool) (hasReader : Bool) (chunks : List (List Char))
    (cancelAt : Option Nat) (tU tA tE : Nat) : SendResult :=
  let message := trimJs inputValue
  if message = [] ∨ isLoading0 = true then
    ⟨messages0, isLoading0, [], ExitPath.noopRejected⟩
  else
    let msgs1 := messages0 ++ [⟨Role.user, message, tU⟩]
    match apiKey with
    | none =>
      ⟨msgs1 ++ [⟨Role.assistant, errMark ++ keyMissingMsg, tE⟩], false, [],
        ExitPath.caughtError⟩
    | some _ =>
      if cancelAt = some 0 then ⟨msgs1, false, [], ExitPath.caughtAbort⟩
      else if responseOk = false then
        ⟨msgs1 ++ [⟨Role.assistant, errMark ++ reqFailedMsg, tE⟩], false, [],
          ExitPath.caughtError⟩
      else if hasReader = false then
        ⟨msgs1 ++ [⟨Role.assistant, errMark ++ noReaderMsg, tE⟩], false, [],
          ExitPath.caughtError⟩
      else
        runLoop messages0 hasSpeak
          ⟨msgs1 ++ [⟨Role.assistant, [], tA⟩], true, [], []⟩ chunks cancelAt

/-- Model of `stopGenerating`: it only calls `abort()` (observed by the read
loop as the `cancelAt` countdown) and clears `isLoading`; it touches nothing
else. -/
def stopGenerating (st : LoopSt) : LoopSt := { st with loading := false }

/-- Frames produced by feeding the chunks in order through the decode loop
(the residual buffer is discarded at `done`, as in the source). -/
def decodeFrames (css : List (List Char)) : List Frame :=
  (decodeLines css).filterMap parseLine

/-- State of the read loop after processing a list of chunks (no abort, no
`done` yet): the fold of `procChunk` over the chunks. -/
def streamState (m0 : List ChatMessage) (hs : Bool) (st : LoopSt)
    (cs : List (List Char)) : LoopSt :=
  cs.foldl (procChunk m0 hs) st

/-- Whether the transcript's last entry exists and has role `assistant` (the
guard `lastMessage && lastMessage.role === 'assistant'`). -/
def lastIsAssistant : List ChatMessage → Bool
  | [] => false
  | [m] =>
    match m.role with
    | Role.assistant => true
    | Role.user => false
  | _ :: m2 :: rest => lastIsAssistant (m2 :: rest)

theorem foldl_feedStep_acc (l : List Char) :
    ∀ la ra, l.foldl feedStep (la, ra) =
      (la ++ (l.foldl feedStep ([], ra)).1, (l.foldl feedStep ([], ra)).2) := by
  induction l with
  | nil => intro la ra; simp
  | cons c l ih =>
    intro la ra
    by_cases hc : c = '\n'
    · subst hc
      have h1 : ∀ la' ra', feedStep (la', ra') '\n' = (la' ++ [ra'], []) := by
        intro la' ra'; simp [feedStep]
      simp only [List.foldl_cons, h1, List.nil_append]
      rw [ih (la ++ [ra]) [], ih [ra] []]
      simp
    · have h1 : ∀ la' ra', feedStep (la', ra') c = (la', ra' ++ [c]) := by
        intro la' ra'; simp [feedStep, hc]
      simp only [List.foldl_cons, h1]
      rw [ih la (ra ++ [c])]

theorem foldl_feedStep_no_nl (l : List Char) (hl : '\n' ∉ l) :
    ∀ la ra, l.foldl feedStep (la, ra) = (la, ra ++ l) := by
  induction l with
  | nil => intro la ra; simp
  | cons c l ih =>
    intro la ra
    have hc : c ≠ '\n' := fun h => hl (h ▸ List.mem_cons_self c l)
    have hl' : '\n' ∉ l := fun h => hl (List.mem_cons_of_mem c h)
    have h1 : ∀ la' ra', feedStep (la', ra') c = (la', ra' ++ [c]) := by
      intro la' ra'; simp [feedStep, hc]
    simp only [List.foldl_cons, h1]
    rw [ih hl' la (ra ++ [c])]
    simp

theorem foldl_feedStep_residual_no_nl (l : List Char) :
    ∀ la ra, '\n' ∉ ra → '\n' ∉ (l.foldl feedStep (la, ra)).2 := by
  induction l with
  | nil => intro la ra hra; simpa using hra
  | cons c l ih =>
    intro la ra hra
    by_cases hc : c = '\n'
    · subst hc
      have h1 : feedStep (la, ra) '\n' = (la ++ [ra], []) := by simp [feedStep]
      simp only [List.foldl_cons, h1]
      exact ih _ _ (by simp)
    · have h1 : feedStep (la, ra) c = (la, ra ++ [c]) := by simp [feedStep, hc]
      simp only [List.foldl_cons, h1]
      refine ih _ _ ?_
      intro hmem
      rcases List.mem_append.1 hmem with h | h
      · exact hra h
      · exact hc (List.mem_singleton.1 h).symm

theorem splitFeed_residual_no_nl (l : List Char) : '\n' ∉ (splitFeed l).2 :=
  foldl_feedStep_residual_no_nl l [] [] (by simp)

theorem splitFeed_append (a b : List Char) :
    splitFeed (a ++ b) =
      ((splitFeed a).1 ++ (splitFeed ((splitFeed a).2 ++ b)).1,
       (splitFeed ((splitFeed a).2 ++ b)).2) := by
  unfold splitFeed
  rw [List.foldl_append]
  have hres : '\n' ∉ (a.foldl feedStep ([], [])).2 :=
    foldl_feedStep_residual_no_nl a [] [] (by simp)
  rw [foldl_feedStep_acc b (a.foldl feedStep ([], [])).1 (a.foldl feedStep ([], [])).2]
  rw [List.foldl_append]
  rw [foldl_feedStep_no_nl (a.foldl feedStep ([], [])).2 hres [] []]
  simp

theorem splitFeed_no_nl (l : List Char) (hl : '\n' ∉ l) : splitFeed l = ([], l) := by
  unfold splitFeed
  rw [foldl_feedStep_no_nl l hl [] []]
  simp

theorem feedChunks_flatten (css : List (List Char)) :
    ∀ buf, css ≠ [] → feedChunks buf css = splitFeed (buf ++ css.flatten) := by
  induction css with
  | nil => intro buf h; exact absurd rfl h
  | cons s ss ih =>
    intro buf _
    by_cases hss : ss = []
    · subst hss
      simp [feedChunks]
    · have := ih (splitFeed (buf ++ s)).2 hss
      simp only [feedChunks, this]
      have happ := splitFeed_append (buf ++ s) ss.flatten
      simp only [List.flatten_cons, ← List.append_assoc]
      rw [happ]

theorem decodeLines_eq_flatten (css : List (List Char)) :
    decodeLines css = (splitFeed css.flatten).1 := by
  by_cases h : css = []
  · subst h; simp [decodeLines, feedChunks, splitFeed]
  · simp [decodeLines, feedChunks_flatten css [] h]


theorem runLoop_abort (m0 : List ChatMessage) (hs : Bool) (st : LoopSt)
    (cs : List (List Char)) :
    runLoop m0 hs st cs (some 1) = ⟨st.msgs, false, st.spoken, ExitPath.caughtAbort⟩ := by
  rw [runLoop.eq_def]
  simp

theorem runLoop_nil (m0 : List ChatMessage) (hs : Bool) (st : LoopSt)
    (ca : Option Nat) (h : ca ≠ some 1) :
    runLoop m0 hs st [] ca = ⟨st.msgs, st.loading, st.spoken, ExitPath.streamDone⟩ := by
  rw [runLoop.eq_def]
  simp [h]

theorem runLoop_cons (m0 : List ChatMessage) (hs : Bool) (st : LoopSt)
    (c : List Char) (cs : List (List Char)) (ca : Option Nat) (h : ca ≠ some 1) :
    runLoop m0 hs st (c :: cs) ca
      = runLoop m0 hs (procChunk m0 hs st c) cs (decCancel ca) := by
  rw [runLoop.eq_def]
  simp [h]

theorem runLoop_cancel_eq (m0 : List ChatMessage) (hs : Bool) :
    ∀ (cs : List (List Char)) (st : LoopSt) (k : Nat), k ≤ cs.length →
      runLoop m0 hs st cs (some (k + 1))
        = ⟨(streamState m0 hs st (cs.take k)).msgs, false,
           (streamState m0 hs st (cs.take k)).spoken, ExitPath.caughtAbort⟩ := by
  intro cs
  induction cs with
  | nil =>
    intro st k hk
    have hk0 : k = 0 := Nat.le_zero.mp hk
    subst hk0
    exact runLoop_abort m0 hs st []
  | cons c cs ih =>
    intro st k hk
    cases k with
    | zero => exact runLoop_abort m0 hs st (c :: cs)
    | succ j =>
      rw [runLoop_cons m0 hs st c cs (some (j + 2)) (by simp)]
      have : decCancel (some (j + 2)) = some (j + 1) := by simp [decCancel]
      rw [this, ih (procChunk m0 hs st c) j (by simpa using hk)]
      simp [streamState]

theorem runLoop_cancel_extra (m0 : List ChatMessage) (hs : Bool)
    (cs extra : List (List Char)) (st : LoopSt) (k : Nat)
    (h1 : 1 ≤ k) (h2 : k ≤ cs.length + 1) :
    runLoop m0 hs st (cs ++ extra) (some k) = runLoop m0 hs st cs (some k) := by
  obtain ⟨j, rfl⟩ := Nat.exists_eq_add_of_le h1
  have hj : j ≤ cs.length := by omega
  rw [Nat.add_comm 1 j]
  rw [runLoop_cancel_eq m0 hs (cs ++ extra) st j (by simp; omega)]
  rw [runLoop_cancel_eq m0 hs cs st j hj]
  rw [List.take_append_of_le_length hj]

theorem applyContent_cons (m : ChatMessage) (l : List ChatMessage)
    (hl : l ≠ []) (p : List Char) :
    applyContent (m :: l) p = m :: applyContent l p := by
  cases l with
  | nil => exact absurd rfl hl
  | cons m2 rest => rfl

theorem applyError_cons (m : ChatMessage) (l : List ChatMessage)
    (hl : l ≠ []) (e : List Char) :
    applyError (m :: l) e = m :: applyError l e := by
  cases l with
  | nil => exact absurd rfl hl
  | cons m2 rest => rfl

theorem applyContent_last (pre : List ChatMessage) (c p : List Char) (t : Nat) :
    applyContent (pre ++ [⟨Role.assistant, c, t⟩]) p
      = pre ++ [⟨Role.assistant, c ++ p, t⟩] := by
  induction pre with
  | nil => rfl
  | cons m pre ih =>
    have hne : pre ++ [(⟨Role.assistant, c, t⟩ : ChatMessage)] ≠ [] := by simp
    have h := applyContent_cons m (pre ++ [(⟨Role.assistant, c, t⟩ : ChatMessage)]) hne p
    rw [List.cons_append, h, ih, List.cons_append]

theorem foldl_applyFrame_content (m0 : List ChatMessage) (hs : Bool)
    (prior : List ChatMessage) (t : Nat) (loading : Bool)
    (spoken : List (List Char)) (buf : List Char) :
    ∀ (ps : List (List Char)) (c : List Char),
      List.foldl (applyFrame m0 hs)
          ⟨prior ++ [⟨Role.assistant, c, t⟩], loading, spoken, buf⟩
          (ps.map Frame.content)
        = ⟨prior ++ [⟨Role.assistant, c ++ ps.flatten, t⟩], loading, spoken, buf⟩ := by
  intro ps
  induction ps with
  | nil => intro c; simp
  | cons p ps ih =>
    intro c
    have h1 : applyFrame m0 hs ⟨prior ++ [⟨Role.assistant, c, t⟩], loading, spoken, buf⟩
        (Frame.content p)
        = ⟨prior ++ [⟨Role.assistant, c ++ p, t⟩], loading, spoken, buf⟩ := by
      simp [applyFrame, applyContent_last]
    simp only [List.map_cons, List.foldl_cons, h1, ih (c ++ p), List.flatten_cons,
      List.append_assoc]

/-- C1: Chunk-split invariance of the frame decoder — for every way of
splitting the stream text into chunks (including mid-line and mid-JSON-token
splits), feeding the chunks in order through the decode loop (append to
buffer, split on newline, retain the trailing partial line) yields exactly
the same sequence of frames as feeding the entire text as a single chunk; no
frame is lost or duplicated across a split. -/
theorem C1_chunk_split_invariance (css : List (List Char)) :
    decodeFrames css = decodeFrames [css.flatten] := by
  unfold decodeFrames
  rw [decodeLines_eq_flatten, decodeLines_eq_flatten]
  simp

/-- C2: Content ordering — applying any sequence of content frames to a
transcript whose freshly appended last entry is an empty assistant message
yields as final assistant content exactly the concatenation of the frames'
payloads in arrival order, and touches neither the other transcript entries
nor the loading flag, the narration record or the decoder buffer. -/
theorem C2_content_ordering (m0 : List ChatMessage) (hs : Bool)
    (prior : List ChatMessage) (t : Nat) (loading : Bool)
    (spoken : List (List Char)) (buf : List Char) (ps : List (List Char)) :
    List.foldl (applyFrame m0 hs)
        ⟨prior ++ [⟨Role.assistant, [], t⟩], loading, spoken, buf⟩
        (ps.map Frame.content)
      = ⟨prior ++ [⟨Role.assistant, ps.flatten, t⟩], loading, spoken, buf⟩ := by
  have h := foldl_applyFrame_content m0 hs prior t loading spoken buf ps []
  simpa using h

/-- C3 counterexample: the claim that any frame applied after a terminal
`end` frame is a no-op is false — a session whose stream carries an `end`
frame followed by a content frame ends with a different result (the content
frame is still appended) than the session whose stream stops at the `end`
frame. -/
theorem C3_counterexample :
    sendMessage "q".toList [] false true (some "k".toList) true true
        ["data: \x7b\"type\":\"end\"\x7d\ndata: \x7b\"type\":\"content\",\"data\":\"after\"\x7d\n".toList]
        none 0 0 0
      ≠ sendMessage "q".toList [] false true (some "k".toList) true true
        ["data: \x7b\"type\":\"end\"\x7d\n".toList] none 0 0 0 := by
  decide

/-- C3 as amended: terminal exclusivity holds for cancellation — once the
abort from `cancel()` is observed, chunks (and hence frames) past the abort
point never influence the result — but not for `end`/`error` frames, after
which the loop keeps applying subsequent frames (see the counterexample). -/
theorem C3_cancel_exclusive (input : List Char) (m0 : List ChatMessage)
    (il0 hs : Bool) (apiKey : Option (List Char)) (ok hr : Bool)
    (chunks extra : List (List Char)) (k : Nat) (tU tA tE : Nat)
    (hk : k ≤ chunks.length + 1) :
    sendMessage input m0 il0 hs apiKey ok hr (chunks ++ extra) (some k) tU tA tE
      = sendMessage input m0 il0 hs apiKey ok hr chunks (some k) tU tA tE := by
  simp only [sendMessage]
  by_cases h1 : trimJs input = [] ∨ il0 = true
  · rw [if_pos h1, if_pos h1]
  · rw [if_neg h1, if_neg h1]
    cases apiKey with
    | none => rfl
    | some key =>
      by_cases hk0 : (some k : Option Nat) = some 0
      · rw [if_pos hk0, if_pos hk0]
      · have hk1 : 1 ≤ k := by
          rcases Nat.eq_zero_or_pos k with h | h
          · exact absurd (by rw [h]) hk0
          · exact h
        rw [if_neg hk0, if_neg hk0]
        by_cases hok : ok = false
        · rw [if_pos hok, if_pos hok]
        · rw [if_neg hok, if_neg hok]
          by_cases hhr : hr = false
          · rw [if_pos hhr, if_pos hhr]
          · rw [if_neg hhr, if_neg hhr]
            exact runLoop_cancel_extra m0 hs chunks extra _ k hk1 hk

/-- C3 witness: a concrete cancelled session whose stream has one extra
buffered chunk past the abort point produces the same result as the session
without that chunk. -/
theorem C3_cancel_exclusive_witness :
    sendMessage "q".toList [] false true (some "k".toList) true true
        (["data: \x7b\"type\":\"content\",\"data\":\"a\"\x7d\n".toList]
          ++ ["data: \x7b\"type\":\"content\",\"data\":\"b\"\x7d\n".toList])
        (some 2) 0 0 0
      = sendMessage "q".toList [] false true (some "k".toList) true true
        ["data: \x7b\"type\":\"content\",\"data\":\"a\"\x7d\n".toList] (some 2) 0 0 0 :=
  C3_cancel_exclusive _ _ _ _ _ _ _ _ _ 2 _ _ _ (by decide)

/-- C4: Narration on completion — evaluating the spec's own end-to-end
scenario (message `revenue?`, stream `content "Rev "`, `content "is up"`,
`end`): the final transcript is user `revenue?` / assistant `Rev is up` and
the session completes, but `spoken = []` — the narration sink is never
invoked, because line 114 reads the `messages` array captured by the closure
(still empty) instead of the live transcript, so `finalContent` is `''` and
the `if (finalContent && onSpeak)` guard fails.  The claim (sink invoked
exactly once with the final assistant content) describes the clear intent;
the code's stale read is the bug. -/
theorem C4_narration_not_invoked :
    sendMessage "revenue?".toList [] false true (some "k".toList) true true
        ["data: \x7b\"type\":\"content\",\"data\":\"Rev \"\x7d\ndata: \x7b\"type\":\"content\",\"data\":\"is up\"\x7d\ndata: \x7b\"type\":\"end\"\x7d\n".toList]
        none 0 0 0
      = ⟨[⟨Role.user, "revenue?".toList, 0⟩, ⟨Role.assistant, "Rev is up".toList, 0⟩],
         false, [], ExitPath.streamDone⟩ := by
  decide

/-- C5 counterexample: a rejected request (non-success status) does append
an assistant Message — the catch branch pushes an assistant-role error
bubble `⚠️ 请求失败` — so the transcript is not "only the user Message". -/
theorem C5_counterexample :
    (sendMessage "hi".toList [] false true (some "k".toList) false true [] none 0 0 0).messages
        = [⟨Role.user, "hi".toList, 0⟩, ⟨Role.assistant, errMark ++ reqFailedMsg, 0⟩]
      ∧ (sendMessage "hi".toList [] false true (some "k".toList) false true [] none 0 0 0).messages
        ≠ [⟨Role.user, "hi".toList, 0⟩] := by
  decide

/-- C5 as amended: a session whose request is rejected (non-success status)
or whose credential is absent ends in the failed state (the generic catch
branch) with the transcript equal to the user Message followed by one
assistant Message carrying the marked error text; no streaming ever
happens. -/
theorem C5_rejected_appends_error (input : List Char) (m0 : List ChatMessage)
    (hs : Bool) (apiKey : Option (List Char)) (ok hr : Bool)
    (chunks : List (List Char)) (tU tA tE : Nat)
    (hmsg : trimJs input ≠ []) (hrej : apiKey = none ∨ ok = false) :
    sendMessage input m0 false hs apiKey ok hr chunks none tU tA tE
      = ⟨m0 ++ [⟨Role.user, trimJs input, tU⟩,
          ⟨Role.assistant,
            errMark ++ (if apiKey = none then keyMissingMsg else reqFailedMsg), tE⟩],
         false, [], ExitPath.caughtError⟩ := by
  simp only [sendMessage]
  rw [if_neg (by simp [hmsg])]
  rcases hrej with h | h
  · subst h
    simp
  · cases apiKey with
    | none => simp
    | some key =>
      subst h
      simp

/-- C5 witness: concrete rejected request with the credential present. -/
theorem C5_rejected_appends_error_witness :
    sendMessage "hi".toList [] false false (some "k".toList) false true [] none 0 0 0
      = ⟨[⟨Role.user, "hi".toList, 0⟩,
          ⟨Role.assistant, errMark ++ reqFailedMsg, 0⟩],
         false, [], ExitPath.caughtError⟩ := by
  rw [C5_rejected_appends_error "hi".toList [] false (some "k".toList) false true [] 0 0 0
      (by decide) (Or.inr rfl)]
  decide

/-- C6: Silent drop of non-conforming lines — a line lacking the `data: `
marker, or whose body after the marker is not valid JSON, produces no frame,
and folding the loop over any line sequence containing it gives exactly the
state obtained with the bad line absent (no error, no termination, and all
frames of the surrounding valid lines unchanged). -/
theorem C6_garbage_drop (m0 : List ChatMessage) (hs : Bool) (st : LoopSt)
    (line : List Char) (pre post : List (List Char))
    (hbad : line.take 6 ≠ dataMarker ∨ (jsonParse (line.drop 6)).isNone = true) :
    parseLine line = none ∧
      List.foldl (procLine m0 hs) st (pre ++ line :: post)
        = List.foldl (procLine m0 hs) st (pre ++ post) := by
  have hnone : parseLine line = none := by
    unfold parseLine
    rcases hbad with h | h
    · rw [if_neg h]
    · rw [Option.isNone_iff_eq_none] at h
      by_cases hm : line.take 6 = dataMarker
      · rw [if_pos hm, h]
      · rw [if_neg hm]
  refine ⟨hnone, ?_⟩
  have hstep : procLine m0 hs (List.foldl (procLine m0 hs) st pre) line
      = List.foldl (procLine m0 hs) st pre := by
    unfold procLine
    rw [hnone]
  rw [List.foldl_append, List.foldl_append, List.foldl_cons, hstep]

/-- C6 witness: the garbage line `data: \x7bnot json` yields no frame and
leaves the processing of a following valid content line unchanged. -/
theorem C6_garbage_drop_witness :
    parseLine "data: \x7bnot json".toList = none ∧
      List.foldl (procLine [] true) ⟨[⟨Role.assistant, [], 0⟩], true, [], []⟩
          ([] ++ "data: \x7bnot json".toList ::
            ["data: \x7b\"type\":\"content\",\"data\":\"ok\"\x7d".toList])
        = List.foldl (procLine [] true) ⟨[⟨Role.assistant, [], 0⟩], true, [], []⟩
          ([] ++ ["data: \x7b\"type\":\"content\",\"data\":\"ok\"\x7d".toList]) :=
  C6_garbage_drop [] true ⟨[⟨Role.assistant, [], 0⟩], true, [], []⟩
    "data: \x7bnot json".toList []
    ["data: \x7b\"type\":\"content\",\"data\":\"ok\"\x7d".toList]
    (Or.inr (by decide))

/-- C7: Cancellation preserves partial content — a session cancelled at read
`k + 1` (after `k` chunks were processed) ends in the cancelled state
(`AbortError` branch: only a log, `isLoading` cleared), its transcript is
exactly the state streamed so far — the partially-built assistant Message is
retained as-is, no failure notice is appended — and no further chunk or
frame is processed. -/
theorem C7_cancel_preserves (input : List Char) (m0 : List ChatMessage)
    (hs : Bool) (key : List Char) (chunks : List (List Char)) (k : Nat)
    (tU tA tE : Nat) (hmsg : trimJs input ≠ []) (hk : k ≤ chunks.length) :
    sendMessage input m0 false hs (some key) true true chunks (some (k + 1)) tU tA tE
      = ⟨(streamState m0 hs
            ⟨m0 ++ [⟨Role.user, trimJs input, tU⟩, ⟨Role.assistant, [], tA⟩],
             true, [], []⟩ (chunks.take k)).msgs,
         false,
         (streamState m0 hs
            ⟨m0 ++ [⟨Role.user, trimJs input, tU⟩, ⟨Role.assistant, [], tA⟩],
             true, [], []⟩ (chunks.take k)).spoken,
         ExitPath.caughtAbort⟩ := by
  simp only [sendMessage]
  rw [if_neg (by simp [hmsg])]
  rw [if_neg (by simp)]
  rw [if_neg (by simp)]
  rw [if_neg (by simp)]
  rw [runLoop_cancel_eq m0 hs chunks _ k hk]
  simp

/-- C7 witness: one content frame `partial` streamed, then cancelled at the
second read — the assistant Message keeps exactly `partial`. -/
theorem C7_cancel_preserves_witness :
    sendMessage "q".toList [] false true (some "k".toList) true true
        ["data: \x7b\"type\":\"content\",\"data\":\"partial\"\x7d\n".toList]
        (some 2) 0 0 0
      = ⟨[⟨Role.user, "q".toList, 0⟩, ⟨Role.assistant, "partial".toList, 0⟩],
         false, [], ExitPath.caughtAbort⟩ := by
  rw [C7_cancel_preserves "q".toList [] true "k".toList
      ["data: \x7b\"type\":\"content\",\"data\":\"partial\"\x7d\n".toList] 1 0 0 0
      (by decide) (by decide)]
  decide

/-- C8 counterexample: the decoder performs no flush at end-of-stream — a
stream consisting of one complete, parseable event line with no trailing
newline yields no frames at all, even though the buffered line would decode
to an `end` frame; the claimed final-frame attempt does not happen. -/
theorem C8_counterexample :
    decodeFrames ["data: \x7b\"type\":\"end\"\x7d".toList] = [] ∧
      parseLine "data: \x7b\"type\":\"end\"\x7d".toList = some Frame.endFrame := by
  decide

/-- C8 as amended: at end-of-stream the residual buffered line is discarded,
never attempted — appending any trailing text that contains no newline (such
as a final event line lacking its terminator) to a stream never adds a
frame. -/
theorem C8_residual_discarded (css : List (List Char)) (s : List Char)
    (hnl : '\n' ∉ s) :
    decodeFrames (css ++ [s]) = decodeFrames css := by
  unfold decodeFrames
  rw [decodeLines_eq_flatten, decodeLines_eq_flatten]
  have h1 : (css ++ [s]).flatten = css.flatten ++ s := by simp
  rw [h1, splitFeed_append]
  have h2 : '\n' ∉ (splitFeed css.flatten).2 ++ s := by
    intro hmem
    rcases List.mem_append.1 hmem with h | h
    · exact splitFeed_residual_no_nl css.flatten h
    · exact hnl h
  rw [splitFeed_no_nl _ h2]
  simp

/-- C8 witness: a newline-terminated end line followed by a trailing chunk
with no newline decodes to the same frames as without the trailing chunk. -/
theorem C8_residual_discarded_witness :
    decodeFrames (["data: \x7b\"type\":\"end\"\x7d\n".toList]
        ++ ["data: \x7b\"type\":\"content\",\"data\":\"x\"\x7d".toList])
      = decodeFrames ["data: \x7b\"type\":\"end\"\x7d\n".toList] :=
  C8_residual_discarded ["data: \x7b\"type\":\"end\"\x7d\n".toList]
    "data: \x7b\"type\":\"content\",\"data\":\"x\"\x7d".toList (by decide)

/-- C9: Start preconditions — a `sendMessage` call whose input is empty
after trimming, or made while a request is already in flight
(`isLoading = true`), is a no-op: no user Message is appended, nothing else
runs, and the transcript and loading state are returned unchanged. -/
theorem C9_start_noop (input : List Char) (m0 : List ChatMessage)
    (il0 hs : Bool) (apiKey : Option (List Char)) (ok hr : Bool)
    (chunks : List (List Char)) (ca : Option Nat) (tU tA tE : Nat)
    (h : trimJs input = [] ∨ il0 = true) :
    sendMessage input m0 il0 hs apiKey ok hr chunks ca tU tA tE
      = ⟨m0, il0, [], ExitPath.noopRejected⟩ := by
  simp only [sendMessage]
  rw [if_pos h]

/-- C9 witness: whitespace-only input is rejected without touching the
transcript. -/
theorem C9_start_noop_witness :
    sendMessage "   ".toList [⟨Role.user, "old".toList, 0⟩] false true
        (some "k".toList) true true
        ["data: \x7b\"type\":\"end\"\x7d\n".toList] none 0 0 0
      = ⟨[⟨Role.user, "old".toList, 0⟩], false, [], ExitPath.noopRejected⟩ :=
  C9_start_noop "   ".toList [⟨Role.user, "old".toList, 0⟩] false true
    (some "k".toList) true true ["data: \x7b\"type\":\"end\"\x7d\n".toList]
    none 0 0 0 (Or.inl (by decide))

/-- C10: Implicit role guard — applying a content or error frame changes
only the last transcript entry (all earlier entries and the length are
preserved), and when the last entry is missing or has role `user` the
transcript is returned entirely unchanged, so no user Message content is
ever modified by frame application. -/
theorem C10_role_guard (msgs : List ChatMessage) (p e : List Char) :
    ((applyContent msgs p).dropLast = msgs.dropLast ∧
     (applyError msgs e).dropLast = msgs.dropLast ∧
     (applyContent msgs p).length = msgs.length ∧
     (applyError msgs e).length = msgs.length) ∧
    (lastIsAssistant msgs = false →
      applyContent msgs p = msgs ∧ applyError msgs e = msgs) := by
  induction msgs with
  | nil => exact ⟨⟨rfl, rfl, rfl, rfl⟩, fun _ => ⟨rfl, rfl⟩⟩
  | cons m rest ih =>
    cases rest with
    | nil =>
      obtain ⟨r, c, t⟩ := m
      cases r with
      | user => exact ⟨⟨rfl, rfl, rfl, rfl⟩, fun _ => ⟨rfl, rfl⟩⟩
      | assistant =>
        refine ⟨⟨rfl, rfl, rfl, rfl⟩, fun h => ?_⟩
        exact absurd h (by simp [lastIsAssistant])
    | cons m2 rest2 =>
      obtain ⟨⟨hd1, hd2, hl1, hl2⟩, hid⟩ := ih
      have hne1 : applyContent (m2 :: rest2) p ≠ [] := by
        intro hx
        rw [hx] at hl1
        simp at hl1
      have hne2 : applyError (m2 :: rest2) e ≠ [] := by
        intro hx
        rw [hx] at hl2
        simp at hl2
      have hc : applyContent (m :: m2 :: rest2) p = m :: applyContent (m2 :: rest2) p := rfl
      have he : applyError (m :: m2 :: rest2) e = m :: applyError (m2 :: rest2) e := rfl
      constructor
      · refine ⟨?_, ?_, ?_, ?_⟩
        · rw [hc, List.dropLast_cons_of_ne_nil hne1,
            List.dropLast_cons_of_ne_nil (List.cons_ne_nil m2 rest2), hd1]
        · rw [he, List.dropLast_cons_of_ne_nil hne2,
            List.dropLast_cons_of_ne_nil (List.cons_ne_nil m2 rest2), hd2]
        · rw [hc, List.length_cons, List.length_cons, hl1]
        · rw [he, List.length_cons, List.length_cons, hl2]
      · intro h
        have h' : lastIsAssistant (m2 :: rest2) = false := h
        obtain ⟨hc', he'⟩ := hid h'
        exact ⟨by rw [hc, hc'], by rw [he, he']⟩

/-- C10 witness: with a lone user Message as transcript, both frame effects
leave it unchanged. -/
theorem C10_role_guard_witness :
    applyContent [⟨Role.user, "hi".toList, 0⟩] "x".toList
        = [⟨Role.user, "hi".toList, 0⟩]
      ∧ applyError [⟨Role.user, "hi".toList, 0⟩] "y".toList
        = [⟨Role.user, "hi".toList, 0⟩] :=
  (C10_role_guard [⟨Role.user, "hi".toList, 0⟩] "x".toList "y".toList).2 (by decide)
